import Mathlib

set_option maxHeartbeats 1000000

/-! Shallow embedding of the core logic of `src/index.js` (an Express image-resize
service built on the sharp codec): background parsing, output-format selection,
size parsing, filename generation, canvas-fit geometry, and the batch
orchestration of the `/resize-multiple` handler. -/

/-- A sharp background colour object, as produced by `parseBackground` in
`src/index.js`: integer RGB channels plus a binary alpha (0 or 1). -/
structure Background where
  r : Nat
  g : Nat
  b : Nat
  alpha : Nat
  deriving Repr, DecidableEq

/-- The two output encodings the service produces ("png" and "jpeg" in the
source). -/
inductive OutputFormat where
  | png
  | jpeg
  deriving Repr, DecidableEq

/-- One scan step of the JS substring test `hay.includes(pat)`: try every start
position. -/
def includesFrom (pat : List Char) : List Char → Bool
  | [] => pat.isEmpty
  | c :: rest => List.isPrefixOf pat (c :: rest) || includesFrom pat rest

/-- JS `s.includes(pat)`, used at `index.js:216` and `index.js:333` as
`(mimetype || "").includes("png")`. -/
def stringIncludes (s pat : String) : Bool := includesFrom pat.toList s.toList

/-- Output-format selection of `index.js:211-218` (and the identical copy at
`index.js:329-335`): a transparent background forces png, else source alpha forces
png, else a declared mime type containing "png" keeps png, otherwise jpeg. -/
def chooseOutputFormat (background : Background) (hasAlpha : Bool) (mimetype : String) :
    OutputFormat :=
  if background.alpha = 0 then .png
  else if hasAlpha then .png
  else if stringIncludes mimetype "png" then .png
  else .jpeg

/-- JS `bgParam.replace("#", "")` at `index.js:90`: `String.replace` with a string
pattern replaces only the first occurrence, wherever it sits. -/
def removeFirstHash : List Char → List Char
  | [] => []
  | c :: rest => if c = '#' then rest else c :: removeFirstHash rest

/-- Membership in the regex character class `[0-9A-Fa-f]`. -/
def isHexDigitJS (c : Char) : Bool :=
  (('0' ≤ c) && (c ≤ '9')) || (('a' ≤ c) && (c ≤ 'f')) || (('A' ≤ c) && (c ≤ 'F'))

/-- The regex test `/^[0-9A-Fa-f]{6}$/` of `index.js:91`. -/
def isSixHex (cs : List Char) : Bool := (cs.length == 6) && cs.all isHexDigitJS

/-- Numeric value of one hexadecimal digit, as `parseInt(-, 16)` assigns it. -/
def hexDigitVal (c : Char) : Nat :=
  if ('0' ≤ c) && (c ≤ '9') then c.toNat - '0'.toNat
  else if ('a' ≤ c) && (c ≤ 'f') then c.toNat - 'a'.toNat + 10
  else if ('A' ≤ c) && (c ≤ 'F') then c.toNat - 'A'.toNat + 10
  else 0

/-- JS `parseInt(hex.slice(i, i + 2), 16)` on a two-character hex slice
(`index.js:92-94`). -/
def hexPairVal : List Char → Nat
  | [a, b] => 16 * hexDigitVal a + hexDigitVal b
  | _ => 0

/-- JS `s.toLowerCase()` on ASCII input: lower-case every character. -/
def toLowerJS (s : String) : String := String.mk (s.toList.map Char.toLower)

/-- `parseBackground` of `index.js:86-99`. The argument is the `bg` query
parameter; `none` models an absent parameter, and JS falsiness makes the empty
string behave like an absent one. -/
def parseBackground (bgParam : Option String) : Background :=
  match bgParam with
  | none => ⟨255, 255, 255, 1⟩
  | some s =>
    if s = "" then ⟨255, 255, 255, 1⟩
    else if toLowerJS s = "transparent" then ⟨0, 0, 0, 0⟩
    else
      let hex := removeFirstHash s.toList
      if isSixHex hex then
        ⟨hexPairVal (hex.take 2), hexPairVal ((hex.drop 2).take 2),
          hexPairVal ((hex.drop 4).take 2), 1⟩
      else ⟨255, 255, 255, 1⟩

/-- The background-token shape the spec names for the hex case: six hexadecimal
digits, optionally preceded by a single leading hash. Kept separate from
`parseBackground` so the two can be compared. -/
def specHexForm (s : String) : Bool :=
  isSixHex s.toList ||
    (match s.toList with
     | '#' :: rest => isSixHex rest
     | _ => false)

/-- JS `parseInt(s, 10)`: skip leading whitespace, take an optional sign and then
the longest leading run of decimal digits; `none` models `NaN` (no digits). -/
def parseIntJS (s : String) : Option Int :=
  let cs := s.toList.dropWhile Char.isWhitespace
  let signAndRest : Int × List Char :=
    match cs with
    | '-' :: rest => (-1, rest)
    | '+' :: rest => (1, rest)
    | rest => (1, rest)
  let digits := signAndRest.2.takeWhile Char.isDigit
  if digits.isEmpty then none
  else some (signAndRest.1 *
    ((digits.foldl (fun acc c => acc * 10 + (c.toNat - '0'.toNat)) 0 : Nat) : Int))

/-- The size computation `Math.max(1, parseInt(req.query.size || "3000", 10))` of
`index.js:198` and `index.js:314`. `none` in the argument models an absent query
parameter (the empty string is falsy, so it also takes the default); `none` in the
result models `NaN`, which `Math.max` propagates rather than clamps. -/
def computeSize (sizeParam : Option String) : Option Int :=
  let str :=
    match sizeParam with
    | none => "3000"
    | some s => if s = "" then "3000" else s
  (parseIntJS str).map (fun v => max 1 v)

/-- Characters the sanitising regex `/[()[\]+\s\-\.]/g` of `index.js:242` and
`index.js:361` matches: brackets, plus, whitespace, hyphen, dot. -/
def sanitizeTarget (c : Char) : Bool :=
  c = '(' || c = ')' || c = '[' || c = ']' || c = '+' || c = '-' || c = '.' || c.isWhitespace

/-- JS `originalName.replace(/[()[\]+\s\-\.]/g, "_")`: a global replace of every
matching character with an underscore. -/
def sanitizeName (s : String) : String :=
  String.mk (s.toList.map (fun c => if sanitizeTarget c then '_' else c))

/-- The final path segment (after the last slash), as `path.parse` isolates the
base name. -/
def lastSegment (cs : List Char) : List Char :=
  (cs.reverse.takeWhile (fun c => c ≠ '/')).reverse

/-- Drop the extension the way `path.parse` does: everything from the last dot on
is the extension, unless that dot is the leading character of the base name. -/
def dropLastExt (cs : List Char) : List Char :=
  if '.' ∈ cs.drop 1 then ((cs.reverse.dropWhile (fun c => c ≠ '.')).drop 1).reverse
  else cs

/-- `path.parse(originalname).name` as used at `index.js:240` and `index.js:360`. -/
def parseNameJS (s : String) : String := String.mk (dropLastExt (lastSegment s.toList))

/-- Extension appended to generated filenames (the literal `${outputFormat}`). -/
def formatExt : OutputFormat → String
  | .png => "png"
  | .jpeg => "jpeg"

/-- Filename generation of `index.js:240-244` and `index.js:359-363`: sanitised
base name, the literal `_resized_`, the `Date.now()` millisecond value, and the
extension. The timestamp the clock returned is passed in explicitly. -/
def generateFilename (originalname : String) (timestamp : Nat) (fmt : OutputFormat) : String :=
  sanitizeName (parseNameJS originalname) ++ "_resized_" ++ toString timestamp ++ "." ++
    formatExt fmt

/-- Probe result of the external codec (`sharp(buffer).metadata()`): dimensions
and the alpha flag. -/
structure ImageMeta where
  width : Nat
  height : Nat
  hasAlpha : Bool
  deriving Repr, DecidableEq

/-- One uploaded file as the `/resize-multiple` handler sees it. The `decoded`
field is modelled from the spec: the external codec capability `probe(bytes)`
returns `SourceImageInfo` or a `DecodeError`; `none` models a corrupt item whose
codec step throws with message `errorMessage`. -/
structure InputFile where
  originalname : String
  mimetype : String
  decoded : Option ImageMeta
  errorMessage : String
  deriving Repr, DecidableEq

/-- The per-item record built by `processImage` (`index.js:319-383`): the success
branch carries filename, format and original dimensions, the catch branch carries
the error message; both carry the original name and the item index. -/
structure TransformResult where
  success : Bool
  filename : Option String
  format : Option OutputFormat
  originalWidth : Option Nat
  originalHeight : Option Nat
  error : Option String
  originalName : String
  index : Nat
  deriving Repr, DecidableEq

/-- `processImage` of `index.js:319-383`, with the ambient pieces passed
explicitly: the shared background and the `Date.now()` value this item observes.
A `none` probe models the codec throwing, which the catch block turns into a
failure record instead of propagating. -/
def processImage (background : Background) (file : InputFile) (index : Nat)
    (timestamp : Nat) : TransformResult :=
  match file.decoded with
  | none =>
    { success := false, filename := none, format := none, originalWidth := none,
      originalHeight := none, error := some file.errorMessage,
      originalName := file.originalname, index := index }
  | some meta =>
    let fmt := chooseOutputFormat background meta.hasAlpha file.mimetype
    { success := true, filename := some (generateFilename file.originalname timestamp fmt),
      format := some fmt, originalWidth := some meta.width,
      originalHeight := some meta.height, error := none,
      originalName := file.originalname, index := index }

/-- `Promise.all(files.map((file, index) => processImage(file, index)))` at
`index.js:386`: `Promise.all` resolves to the results in the order of the input
array, regardless of completion order. `clock i` is the `Date.now()` value item
`i` observes when it completes. -/
def batchResults (background : Background) (clock : Nat → Nat)
    (files : List InputFile) : List TransformResult :=
  files.mapIdx (fun i f => processImage background f i (clock i))

/-- The JSON body the `/resize-multiple` handler sends on its success path
(`index.js:393-404`). -/
structure MultiResponse where
  success : Bool
  totalImages : Nat
  successfulCount : Nat
  failedCount : Nat
  images : List TransformResult
  errors : List TransformResult
  deriving Repr, DecidableEq

/-- Outcome of the `/resize-multiple` handler: an early 400 rejection or the
assembled response. -/
inductive MultiOutcome where
  | rejected (status : Nat) (error : String)
  | ok (resp : MultiResponse)
  deriving Repr, DecidableEq

/-- The `/resize-multiple` handler body of `index.js:294-404`, after multer and
authentication: count validation first, then the parallel per-item processing and
the response assembly. -/
def resizeMultiple (files : List InputFile) (background : Background)
    (clock : Nat → Nat) : MultiOutcome :=
  if files.length = 0 then .rejected 400 "At least one image file must be provided"
  else if files.length > 5 then .rejected 400 "Maximum 5 images allowed per request"
  else
    let results := batchResults background clock files
    let successful := results.filter (fun r => r.success)
    let failed := results.filter (fun r => !r.success)
    .ok { success := true, totalImages := files.length,
          successfulCount := successful.length, failedCount := failed.length,
          images := successful, errors := failed }

/-- Geometry of a contain fit inside a square canvas. -/
structure FitPlan where
  scaledWidth : Int
  scaledHeight : Int
  offsetX : Int
  offsetY : Int
  deriving Repr, DecidableEq

/-- Modelled from the spec: the Canvas Fit Planner of section 4.3. The repository
delegates the contain-fit geometry to the external codec (sharp, called with
`fit: "contain"` at `index.js:222-228` and `index.js:338-344`), so the
computation itself is not in the source; this follows the formulas the spec
gives for it. -/
def canvasFitPlan (width height boxSize : Nat) : FitPlan :=
  let scaleFactor : ℚ := min ((boxSize : ℚ) / (width : ℚ)) ((boxSize : ℚ) / (height : ℚ))
  let scaledWidth : Int := max 1 (min (boxSize : Int) (round ((width : ℚ) * scaleFactor)))
  let scaledHeight : Int := max 1 (min (boxSize : Int) (round ((height : ℚ) * scaleFactor)))
  { scaledWidth := scaledWidth, scaledHeight := scaledHeight,
    offsetX := ((boxSize : Int) - scaledWidth) / 2,
    offsetY := ((boxSize : Int) - scaledHeight) / 2 }

example : canvasFitPlan 800 400 1000 = ⟨1000, 500, 0, 250⟩ := by
  simp only [canvasFitPlan]
  norm_num [round_eq, min_def, max_def]
example : canvasFitPlan 400 800 1000 = ⟨500, 1000, 250, 0⟩ := by
  simp only [canvasFitPlan]
  norm_num [round_eq, min_def, max_def]
example : canvasFitPlan 100 100 1000 = ⟨1000, 1000, 0, 0⟩ := by
  simp only [canvasFitPlan]
  norm_num [round_eq, min_def, max_def]
example : generateFilename "my photo (1).png" 42 .png = "my_photo__1__resized_42.png" := by decide
example : parseNameJS "a.b.c" = "a.b" := by decide
example : parseNameJS ".png" = ".png" := by decide
/-- A sample well-formed png upload. -/
def okPngFile : InputFile := ⟨"photo.png", "image/png", some ⟨800, 400, true⟩, ""⟩

/-- A sample well-formed jpeg upload. -/
def okJpegFile : InputFile := ⟨"pic.jpg", "image/jpeg", some ⟨640, 480, false⟩, ""⟩

/-- A sample corrupt upload: the codec probe throws on it. -/
def corruptFile : InputFile :=
  ⟨"broken.jpg", "image/jpeg", none, "Input buffer contains unsupported image format"⟩

theorem processImage_index (background : Background) (file : InputFile)
    (index timestamp : Nat) :
    (processImage background file index timestamp).index = index := by
  cases h : file.decoded <;> simp [processImage, h]

theorem processImage_success_iff (background : Background) (file : InputFile)
    (index timestamp : Nat) :
    (processImage background file index timestamp).success = file.decoded.isSome := by
  cases h : file.decoded <;> simp [processImage, h]

theorem processImage_error_of_corrupt (background : Background) (file : InputFile)
    (index timestamp : Nat) (h : file.decoded = none) :
    (processImage background file index timestamp).error = some file.errorMessage := by
  simp [processImage, h]

theorem batchResults_length (background : Background) (clock : Nat → Nat)
    (files : List InputFile) :
    (batchResults background clock files).length = files.length := by
  simp [batchResults]

theorem batchResults_getElem (background : Background) (clock : Nat → Nat)
    (files : List InputFile) (i : Nat) :
    (batchResults background clock files)[i]? =
      (files[i]?).map (fun f => processImage background f i (clock i)) := by
  simp [batchResults, List.getElem?_mapIdx]

theorem mapIdx_filter_eq_self {α β : Type} (p : β → Bool) (g : Nat → α → β)
    (l : List α) (hp : ∀ a ∈ l, ∀ i, p (g i a) = true) :
    (l.mapIdx g).filter p = l.mapIdx g := by
  apply List.filter_eq_self.mpr
  intro r hr
  obtain ⟨i, hi⟩ := List.mem_iff_getElem?.mp hr
  rw [List.getElem?_mapIdx] at hi
  cases hf : l[i]? with
  | none => rw [hf] at hi; simp at hi
  | some a =>
    rw [hf] at hi
    simp only [Option.map_some', Option.some.injEq] at hi
    rw [← hi]
    exact hp a (List.getElem?_mem hf) i

theorem mapIdx_filter_eq_nil {α β : Type} (p : β → Bool) (g : Nat → α → β)
    (l : List α) (hp : ∀ a ∈ l, ∀ i, p (g i a) = false) :
    (l.mapIdx g).filter p = [] := by
  apply List.filter_eq_nil_iff.mpr
  intro r hr
  obtain ⟨i, hi⟩ := List.mem_iff_getElem?.mp hr
  rw [List.getElem?_mapIdx] at hi
  cases hf : l[i]? with
  | none => rw [hf] at hi; simp at hi
  | some a =>
    rw [hf] at hi
    simp only [Option.map_some', Option.some.injEq] at hi
    rw [← hi]
    simp [hp a (List.getElem?_mem hf) i]

example : parseBackground (some "#336699") = ⟨51, 102, 153, 1⟩ := by decide
example : parseBackground (some "TrAnSpArEnT") = ⟨0, 0, 0, 0⟩ := by decide
example : parseBackground (some "ab#cdef") = ⟨171, 205, 239, 1⟩ := by decide
example : parseBackground (some "not-a-color") = ⟨255, 255, 255, 1⟩ := by decide
example : computeSize none = some 3000 := by decide
example : computeSize (some "abc") = none := by decide
example : computeSize (some "-5") = some 1 := by decide
example : computeSize (some "  42") = some 42 := by decide
example : stringIncludes "image/png" "png" = true := by decide
example : stringIncludes "image/jpeg" "png" = false := by decide

/-- C2: in a batch of between 1 and 5 accepted items where exactly the item at
position k fails its codec step and all others succeed, the per-item results keep
the input order with record i carrying index i, record k is the only failure and
carries the error message, and the assembled response counts n-1 successes and
one failure. -/
theorem batch_single_failure (background : Background) (clock : Nat → Nat)
    (pre post : List InputFile) (bad : InputFile)
    (hpre : ∀ f ∈ pre, f.decoded.isSome = true)
    (hpost : ∀ f ∈ post, f.decoded.isSome = true)
    (hbad : bad.decoded = none)
    (hmax : pre.length + 1 + post.length ≤ 5) :
    (batchResults background clock (pre ++ bad :: post)).length =
        pre.length + 1 + post.length ∧
    (∀ i r, (batchResults background clock (pre ++ bad :: post))[i]? = some r →
        r.index = i ∧ (r.success = true ↔ i ≠ pre.length)) ∧
    (∀ r, (batchResults background clock (pre ++ bad :: post))[pre.length]? = some r →
        r.success = false ∧ r.error = some bad.errorMessage) ∧
    (∃ resp, resizeMultiple (pre ++ bad :: post) background clock = MultiOutcome.ok resp ∧
        resp.totalImages = pre.length + 1 + post.length ∧
        resp.successfulCount = pre.length + post.length ∧
        resp.failedCount = 1) := by
  have hfile : ∀ i f, (pre ++ bad :: post)[i]? = some f →
      (f.decoded.isSome = true ↔ i ≠ pre.length) ∧ (i = pre.length → f = bad) := by
    intro i f hf
    rcases Nat.lt_trichotomy i pre.length with hlt | heq | hgt
    · rw [List.getElem?_append_left hlt] at hf
      have hmem := List.getElem?_mem hf
      exact ⟨by simp [hpre f hmem, Nat.ne_of_lt hlt], fun h => absurd h (Nat.ne_of_lt hlt)⟩
    · subst heq
      rw [List.getElem?_append_right (Nat.le_refl _), Nat.sub_self] at hf
      simp only [List.getElem?_cons_zero, Option.some.injEq] at hf
      subst hf
      exact ⟨by simp [hbad], fun _ => rfl⟩
    · rw [List.getElem?_append_right (Nat.le_of_lt hgt)] at hf
      have hj : i - pre.length = (i - pre.length - 1) + 1 := by omega
      rw [hj, List.getElem?_cons_succ] at hf
      have hmem := List.getElem?_mem hf
      have hne : i ≠ pre.length := by omega
      exact ⟨by simp [hpost f hmem, hne], fun h => absurd h hne⟩
  refine ⟨?_, ?_, ?_, ?_⟩
  · rw [batchResults_length]
    simp only [List.length_append, List.length_cons]
    omega
  · intro i r hr
    rw [batchResults_getElem] at hr
    cases hf : (pre ++ bad :: post)[i]? with
    | none => rw [hf] at hr; simp at hr
    | some f =>
      rw [hf] at hr
      simp only [Option.map_some', Option.some.injEq] at hr
      subst hr
      refine ⟨processImage_index _ _ _ _, ?_⟩
      rw [processImage_success_iff]
      exact (hfile i f hf).1
  · intro r hr
    rw [batchResults_getElem] at hr
    cases hf : (pre ++ bad :: post)[pre.length]? with
    | none => rw [hf] at hr; simp at hr
    | some f =>
      rw [hf] at hr
      simp only [Option.map_some', Option.some.injEq] at hr
      subst hr
      have hfb := (hfile pre.length f hf).2 rfl
      subst hfb
      refine ⟨?_, processImage_error_of_corrupt _ _ _ _ hbad⟩
      rw [processImage_success_iff, hbad]
      rfl
  · have hlen0 : ¬ (pre ++ bad :: post).length = 0 := by simp
    have hlen5 : ¬ (pre ++ bad :: post).length > 5 := by
      simp only [List.length_append, List.length_cons, gt_iff_lt, not_lt]
      omega
    have hdecomp : batchResults background clock (pre ++ bad :: post) =
        pre.mapIdx (fun i f => processImage background f i (clock i)) ++
          (processImage background bad (0 + pre.length) (clock (0 + pre.length)) ::
            post.mapIdx (fun i f =>
              processImage background f (i + 1 + pre.length) (clock (i + 1 + pre.length)))) := by
      rw [batchResults, List.mapIdx_append, List.mapIdx_cons]
    have hbadsucc :
        (processImage background bad (0 + pre.length) (clock (0 + pre.length))).success
          = false := by
      rw [processImage_success_iff, hbad]; rfl
    have hA : (pre.mapIdx (fun i f => processImage background f i (clock i))).filter
        (fun r => r.success) =
          pre.mapIdx (fun i f => processImage background f i (clock i)) :=
      mapIdx_filter_eq_self _ _ _ (by
        intro a ha i
        rw [processImage_success_iff]
        exact hpre a ha)
    have hB : (post.mapIdx (fun i f =>
          processImage background f (i + 1 + pre.length) (clock (i + 1 + pre.length)))).filter
        (fun r => r.success) =
          post.mapIdx (fun i f =>
            processImage background f (i + 1 + pre.length) (clock (i + 1 + pre.length))) :=
      mapIdx_filter_eq_self _ _ _ (by
        intro a ha i
        rw [processImage_success_iff]
        exact hpost a ha)
    have hA0 : (pre.mapIdx (fun i f => processImage background f i (clock i))).filter
        (fun r => !r.success) = [] :=
      mapIdx_filter_eq_nil _ _ _ (by
        intro a ha i
        rw [Bool.not_eq_false', processImage_success_iff]
        exact hpre a ha)
    have hB0 : (post.mapIdx (fun i f =>
          processImage background f (i + 1 + pre.length) (clock (i + 1 + pre.length)))).filter
        (fun r => !r.success) = [] :=
      mapIdx_filter_eq_nil _ _ _ (by
        intro a ha i
        rw [Bool.not_eq_false', processImage_success_iff]
        exact hpost a ha)
    unfold resizeMultiple
    rw [if_neg hlen0, if_neg hlen5]
    refine ⟨_, rfl, by simp only [List.length_append, List.length_cons]; omega, ?_, ?_⟩
    · show ((batchResults background clock (pre ++ bad :: post)).filter
        (fun r => r.success)).length = pre.length + post.length
      rw [hdecomp, List.filter_append, List.filter_cons, hbadsucc]
      simp [hA, hB]
    · show ((batchResults background clock (pre ++ bad :: post)).filter
        (fun r => !r.success)).length = 1
      rw [hdecomp, List.filter_append, List.filter_cons, hA0, hB0]
      simp [processImage_success_iff, hbad]

/-- Witness for the batch single-failure theorem at a concrete three-item batch
whose middle item is corrupt. -/
theorem batch_single_failure_witness :
    (batchResults (parseBackground none) (fun _ => 1000)
        [okPngFile, corruptFile, okJpegFile]).length = 3 ∧
    (∃ resp, resizeMultiple [okPngFile, corruptFile, okJpegFile] (parseBackground none)
        (fun _ => 1000) = MultiOutcome.ok resp ∧
      resp.totalImages = 3 ∧ resp.successfulCount = 2 ∧ resp.failedCount = 1) :=
  have h := batch_single_failure (parseBackground none) (fun _ => 1000)
    [okPngFile] [okJpegFile] corruptFile (by decide) (by decide) (by decide) (by decide)
  ⟨h.1, h.2.2.2⟩

/-- C1: the output format is chosen by the ordered decision table, first match
wins: a transparent background forces the alpha raster (png); else a source alpha
channel forces png; else a declared mime type containing "png" forces png;
otherwise the opaque raster (jpeg). -/
theorem chooseOutputFormat_table (background : Background) (hasAlpha : Bool)
    (mimetype : String) :
    (background.alpha = 0 → chooseOutputFormat background hasAlpha mimetype = .png) ∧
    (background.alpha ≠ 0 → hasAlpha = true →
      chooseOutputFormat background hasAlpha mimetype = .png) ∧
    (background.alpha ≠ 0 → hasAlpha = false → stringIncludes mimetype "png" = true →
      chooseOutputFormat background hasAlpha mimetype = .png) ∧
    (background.alpha ≠ 0 → hasAlpha = false → stringIncludes mimetype "png" = false →
      chooseOutputFormat background hasAlpha mimetype = .jpeg) :=
  ⟨fun h1 => by simp [chooseOutputFormat, h1],
   fun h1 h2 => by simp [chooseOutputFormat, h1, h2],
   fun h1 h2 h3 => by simp [chooseOutputFormat, h1, h2, h3],
   fun h1 h2 h3 => by simp [chooseOutputFormat, h1, h2, h3]⟩

/-- Witness for the format-selection table: an opaque background, no source
alpha, and a jpeg mime type land in the final opaque-raster row. -/
theorem chooseOutputFormat_table_witness :
    ((⟨255, 255, 255, 1⟩ : Background).alpha ≠ 0) ∧
    chooseOutputFormat ⟨255, 255, 255, 1⟩ false "image/jpeg" = OutputFormat.jpeg :=
  ⟨by decide, (chooseOutputFormat_table ⟨255, 255, 255, 1⟩ false "image/jpeg").2.2.2
    (by decide) rfl (by decide)⟩

/-- C3 fails as stated: the token "ab#cdef" is not absent, not "transparent", and
not six hex digits optionally prefixed with a hash, yet `parseBackground` parses
it as a colour instead of falling back to opaque white, because the JS replace
removes the first hash anywhere in the token, not only a leading one. -/
theorem parseBackground_hash_anywhere :
    specHexForm "ab#cdef" = false ∧
    toLowerJS "ab#cdef" ≠ "transparent" ∧
    parseBackground (some "ab#cdef") = ⟨171, 205, 239, 1⟩ ∧
    parseBackground (some "ab#cdef") ≠ ⟨255, 255, 255, 1⟩ :=
  ⟨by decide, by decide, by decide, by decide⟩

/-- C3 amended: the resolver returns opaque white for an absent or empty token;
transparent black for a token that lower-cases to "transparent"; the parsed RGB
triple with alpha 1 when the token with its first hash (anywhere in the string)
removed is exactly six hexadecimal digits; and opaque white for every other
token, never raising an error. -/
theorem parseBackground_cases (bgParam : Option String) :
    ((bgParam = none ∨ bgParam = some "") → parseBackground bgParam = ⟨255, 255, 255, 1⟩) ∧
    (∀ s, bgParam = some s → s ≠ "" → toLowerJS s = "transparent" →
      parseBackground bgParam = ⟨0, 0, 0, 0⟩) ∧
    (∀ s, bgParam = some s → s ≠ "" → toLowerJS s ≠ "transparent" →
      isSixHex (removeFirstHash s.toList) = true →
      parseBackground bgParam =
        ⟨hexPairVal ((removeFirstHash s.toList).take 2),
         hexPairVal (((removeFirstHash s.toList).drop 2).take 2),
         hexPairVal (((removeFirstHash s.toList).drop 4).take 2), 1⟩) ∧
    (∀ s, bgParam = some s → s ≠ "" → toLowerJS s ≠ "transparent" →
      isSixHex (removeFirstHash s.toList) = false →
      parseBackground bgParam = ⟨255, 255, 255, 1⟩) ∧
    parseBackground (some "#336699") = ⟨51, 102, 153, 1⟩ := by
  refine ⟨?_, ?_, ?_, ?_, by decide⟩
  · rintro (rfl | rfl) <;> decide
  · rintro s rfl hne htr
    simp [parseBackground, hne, htr]
  · rintro s rfl hne htr hhex
    simp only [parseBackground, if_neg hne, if_neg htr, hhex, eq_self_iff_true, if_true]
  · rintro s rfl hne htr hhex
    simp only [parseBackground, if_neg hne, if_neg htr, hhex, Bool.false_eq_true, if_false]

/-- Witness for the amended background cases: the hex case fires on "ab#cdef",
whose first hash sits in the middle of the token. -/
theorem parseBackground_cases_witness :
    (toLowerJS "ab#cdef" ≠ "transparent") ∧
    isSixHex (removeFirstHash "ab#cdef".toList) = true ∧
    parseBackground (some "ab#cdef") =
      ⟨hexPairVal ((removeFirstHash "ab#cdef".toList).take 2),
       hexPairVal (((removeFirstHash "ab#cdef".toList).drop 2).take 2),
       hexPairVal (((removeFirstHash "ab#cdef".toList).drop 4).take 2), 1⟩ :=
  ⟨by decide, by decide,
    (parseBackground_cases (some "ab#cdef")).2.2.1 "ab#cdef" rfl (by decide) (by decide)
      (by decide)⟩

theorem round_le_round_rat {x y : ℚ} (h : x ≤ y) : round x ≤ round y := by
  rw [round_eq, round_eq]
  exact Int.floor_le_floor (by linarith)

/-- C4: for positive source dimensions and box size, the contain-fit plan follows
the spec formulas (scale factor the minimum of the two box ratios, dimensions
rounded and clamped to the range from 1 to boxSize, offsets centring by floor
halving), the 800x400 at box 1000 example computes to 1000x500 at offset (0, 250),
and a source strictly smaller than the box is upscaled in both dimensions. -/
theorem canvasFitPlan_spec (width height boxSize : Nat)
    (hw : 0 < width) (hh : 0 < height) (hb : 0 < boxSize) :
    ((canvasFitPlan width height boxSize).scaledWidth =
        max 1 (min (boxSize : Int) (round ((width : ℚ) *
          min ((boxSize : ℚ) / (width : ℚ)) ((boxSize : ℚ) / (height : ℚ))))) ∧
      (canvasFitPlan width height boxSize).scaledHeight =
        max 1 (min (boxSize : Int) (round ((height : ℚ) *
          min ((boxSize : ℚ) / (width : ℚ)) ((boxSize : ℚ) / (height : ℚ))))) ∧
      (canvasFitPlan width height boxSize).offsetX =
        ((boxSize : Int) - (canvasFitPlan width height boxSize).scaledWidth) / 2 ∧
      (canvasFitPlan width height boxSize).offsetY =
        ((boxSize : Int) - (canvasFitPlan width height boxSize).scaledHeight) / 2) ∧
    (1 ≤ (canvasFitPlan width height boxSize).scaledWidth ∧
      (canvasFitPlan width height boxSize).scaledWidth ≤ (boxSize : Int) ∧
      1 ≤ (canvasFitPlan width height boxSize).scaledHeight ∧
      (canvasFitPlan width height boxSize).scaledHeight ≤ (boxSize : Int)) ∧
    canvasFitPlan 800 400 1000 = ⟨1000, 500, 0, 250⟩ ∧
    (width < boxSize → height < boxSize →
      (width : Int) ≤ (canvasFitPlan width height boxSize).scaledWidth ∧
      (height : Int) ≤ (canvasFitPlan width height boxSize).scaledHeight) := by
  have hb1 : (1 : Int) ≤ (boxSize : Int) := by exact_mod_cast hb
  refine ⟨⟨rfl, rfl, rfl, rfl⟩, ?_, ?_, ?_⟩
  · refine ⟨le_max_left _ _, ?_, le_max_left _ _, ?_⟩
    · exact max_le hb1 (min_le_left _ _)
    · exact max_le hb1 (min_le_left _ _)
  · simp only [canvasFitPlan]
    norm_num [round_eq, min_def, max_def]
  · intro hwb hhb
    have hwQ : (0 : ℚ) < (width : ℚ) := by exact_mod_cast hw
    have hhQ : (0 : ℚ) < (height : ℚ) := by exact_mod_cast hh
    have hsf : (1 : ℚ) ≤ min ((boxSize : ℚ) / (width : ℚ)) ((boxSize : ℚ) / (height : ℚ)) := by
      refine le_min ?_ ?_
      · exact (one_le_div₀ hwQ).mpr (by exact_mod_cast Nat.le_of_lt hwb)
      · exact (one_le_div₀ hhQ).mpr (by exact_mod_cast Nat.le_of_lt hhb)
    constructor
    · have hle : (width : ℚ) ≤ (width : ℚ) *
          min ((boxSize : ℚ) / (width : ℚ)) ((boxSize : ℚ) / (height : ℚ)) :=
        le_mul_of_one_le_right (le_of_lt hwQ) hsf
      have hr : (width : Int) ≤ round ((width : ℚ) *
          min ((boxSize : ℚ) / (width : ℚ)) ((boxSize : ℚ) / (height : ℚ))) := by
        have := round_le_round_rat hle
        rwa [round_natCast] at this
      have hmin : (width : Int) ≤ min (boxSize : Int) (round ((width : ℚ) *
          min ((boxSize : ℚ) / (width : ℚ)) ((boxSize : ℚ) / (height : ℚ)))) :=
        le_min (by exact_mod_cast Nat.le_of_lt hwb) hr
      exact le_trans hmin (le_max_right _ _)
    · have hle : (height : ℚ) ≤ (height : ℚ) *
          min ((boxSize : ℚ) / (width : ℚ)) ((boxSize : ℚ) / (height : ℚ)) :=
        le_mul_of_one_le_right (le_of_lt hhQ) hsf
      have hr : (height : Int) ≤ round ((height : ℚ) *
          min ((boxSize : ℚ) / (width : ℚ)) ((boxSize : ℚ) / (height : ℚ))) := by
        have := round_le_round_rat hle
        rwa [round_natCast] at this
      have hmin : (height : Int) ≤ min (boxSize : Int) (round ((height : ℚ) *
          min ((boxSize : ℚ) / (width : ℚ)) ((boxSize : ℚ) / (height : ℚ)))) :=
        le_min (by exact_mod_cast Nat.le_of_lt hhb) hr
      exact le_trans hmin (le_max_right _ _)

/-- Witness for the fit-plan theorem: the concrete example and the upscaling of a
100x100 source into a 1000 box. -/
theorem canvasFitPlan_spec_witness :
    (0 : Nat) < 100 ∧ canvasFitPlan 800 400 1000 = ⟨1000, 500, 0, 250⟩ ∧
    (100 : Int) ≤ (canvasFitPlan 100 100 1000).scaledWidth :=
  have h := canvasFitPlan_spec 100 100 1000 (by decide) (by decide) (by decide)
  ⟨by decide, h.2.2.1, (h.2.2.2 (by decide) (by decide)).1⟩

/-- C8: the canvas fit computation is a pure deterministic function of source
width, source height and box size: equal inputs always give equal plans. -/
theorem canvasFitPlan_deterministic (w1 h1 b1 w2 h2 b2 : Nat)
    (hw : w1 = w2) (hh : h1 = h2) (hb : b1 = b2) :
    canvasFitPlan w1 h1 b1 = canvasFitPlan w2 h2 b2 := by
  rw [hw, hh, hb]

/-- Witness for determinism of the fit plan at the 800x400 example inputs. -/
theorem canvasFitPlan_deterministic_witness :
    (800 : Nat) = 800 ∧ canvasFitPlan 800 400 1000 = canvasFitPlan 800 400 1000 :=
  ⟨rfl, canvasFitPlan_deterministic 800 400 1000 800 400 1000 rfl rfl rfl⟩

/-- A first sample item whose sanitised base name is "a". -/
def twinFileA : InputFile := ⟨"a.png", "image/png", some ⟨10, 10, true⟩, ""⟩

/-- A second, distinct sample item with the same sanitised base name "a". -/
def twinFileB : InputFile := ⟨"a.png", "image/png", some ⟨20, 20, true⟩, ""⟩

/-- C5 fails on the code: two distinct items of the same batch whose sanitised
base names agree and whose codec steps complete in the same `Date.now()`
millisecond are given identical filenames, because the uniqueness token is the
timestamp alone with no per-item disambiguator. -/
theorem filename_timestamp_collision :
    twinFileA ≠ twinFileB ∧
    (batchResults (parseBackground none) (fun _ => 999) [twinFileA, twinFileB]).map
        (fun r => r.filename) =
      [some "a_resized_999.png", some "a_resized_999.png"] :=
  ⟨by decide, by decide⟩

/-- C6: a batch whose input count is zero or exceeds five is rejected with a 400
error by the count validation, before any per-item codec work, so no per-item
results are produced. -/
theorem resizeMultiple_count_validation (files : List InputFile)
    (background : Background) (clock : Nat → Nat)
    (h : files.length = 0 ∨ files.length > 5) :
    ∃ msg, resizeMultiple files background clock = MultiOutcome.rejected 400 msg := by
  rcases h with h | h
  · refine ⟨"At least one image file must be provided", ?_⟩
    unfold resizeMultiple
    rw [if_pos h]
  · have h0 : ¬ files.length = 0 := by omega
    refine ⟨"Maximum 5 images allowed per request", ?_⟩
    unfold resizeMultiple
    rw [if_neg h0, if_pos h]

/-- Witness for the count validation at the empty batch. -/
theorem resizeMultiple_count_validation_witness :
    (([] : List InputFile).length = 0 ∨ ([] : List InputFile).length > 5) ∧
    (∃ msg, resizeMultiple [] (parseBackground none) (fun _ => 0) =
      MultiOutcome.rejected 400 msg) :=
  ⟨Or.inl rfl,
    resizeMultiple_count_validation [] (parseBackground none) (fun _ => 0) (Or.inl rfl)⟩

/-- C7: an unspecified size parameter yields the 3000 default, every parsed value
below 1 is clamped to 1, and any size the computation yields is at least 1 (never
zero or negative). -/
theorem computeSize_default_and_clamp :
    computeSize none = some 3000 ∧
    (∀ s v, s ≠ "" → parseIntJS s = some v → v < 1 → computeSize (some s) = some 1) ∧
    (∀ s v, computeSize (some s) = some v → 1 ≤ v) := by
  refine ⟨by decide, ?_, ?_⟩
  · intro s v hs hp hv
    simp only [computeSize, if_neg hs, hp, Option.map_some', Option.some.injEq]
    exact max_eq_left (by omega)
  · intro s v h
    by_cases hs : s = ""
    · rw [hs] at h
      rw [show computeSize (some "") = some 3000 from by decide] at h
      simp only [Option.some.injEq] at h
      omega
    · simp only [computeSize, if_neg hs] at h
      cases hp : parseIntJS s with
      | none => rw [hp] at h; simp at h
      | some u =>
        rw [hp] at h
        simp only [Option.map_some', Option.some.injEq] at h
        omega

/-- Witness for the size clamp: the string "0" parses to 0 and is clamped to 1. -/
theorem computeSize_default_and_clamp_witness :
    ("0" ≠ "") ∧ parseIntJS "0" = some 0 ∧ ((0 : Int) < 1) ∧
    computeSize (some "0") = some 1 :=
  ⟨by decide, by decide, by decide,
    computeSize_default_and_clamp.2.1 "0" 0 (by decide) (by decide) (by decide)⟩

/-- C9: whenever the count validation passes, the top-level success flag of the
response is true — even if every individual item failed; per-item failure is
visible only in the errors list and the failedCount. -/
theorem resizeMultiple_top_success (files : List InputFile) (background : Background)
    (clock : Nat → Nat) (h0 : ¬ files.length = 0) (h5 : files.length ≤ 5) :
    ∃ resp, resizeMultiple files background clock = MultiOutcome.ok resp ∧
      resp.success = true ∧ resp.totalImages = files.length ∧
      ((∀ f ∈ files, f.decoded = none) →
        resp.failedCount = files.length ∧ resp.successfulCount = 0) := by
  have h5n : ¬ files.length > 5 := by omega
  unfold resizeMultiple
  rw [if_neg h0, if_neg h5n]
  refine ⟨_, rfl, rfl, rfl, ?_⟩
  intro hall
  constructor
  · show ((batchResults background clock files).filter (fun r => !r.success)).length
        = files.length
    rw [batchResults, mapIdx_filter_eq_self _ _ _ (by
      intro a ha i
      simp [processImage_success_iff, hall a ha])]
    exact List.length_mapIdx
  · show ((batchResults background clock files).filter (fun r => r.success)).length = 0
    rw [batchResults, mapIdx_filter_eq_nil _ _ _ (by
      intro a ha i
      simp [processImage_success_iff, hall a ha])]
    rfl

/-- Witness for the top-level success flag on a batch whose only item fails. -/
theorem resizeMultiple_top_success_witness :
    (¬ ([corruptFile] : List InputFile).length = 0) ∧
    (∃ resp, resizeMultiple [corruptFile] (parseBackground none) (fun _ => 0) =
        MultiOutcome.ok resp ∧
      resp.success = true ∧ resp.totalImages = 1 ∧
      ((∀ f ∈ ([corruptFile] : List InputFile), f.decoded = none) →
        resp.failedCount = 1 ∧ resp.successfulCount = 0)) :=
  ⟨by decide,
    resizeMultiple_top_success [corruptFile] (parseBackground none) (fun _ => 0)
      (by decide) (by decide)⟩

/-- C10: a non-empty size string with no leading digits parses to NaN, which
`Math.max` propagates instead of clamping, so the computed size is NaN (modelled
as `none`) rather than 1 or the 3000 default, and that value is what reaches the
resize call. -/
theorem computeSize_nan_passthrough :
    (∀ s, s ≠ "" → parseIntJS s = none → computeSize (some s) = none) ∧
    computeSize (some "abc") = none := by
  refine ⟨?_, by decide⟩
  intro s hs hp
  simp only [computeSize, if_neg hs, hp, Option.map_none']

/-- Witness for the NaN passthrough at the size string "abc". -/
theorem computeSize_nan_passthrough_witness :
    ("abc" ≠ "") ∧ parseIntJS "abc" = none ∧ computeSize (some "abc") = none :=
  ⟨by decide, by decide, computeSize_nan_passthrough.1 "abc" (by decide) (by decide)⟩
